import Mathlib

/-!
Shallow embedding of the payment-reconciliation core of the
`bank_file_tracker` repository, together with theorems checking the
natural-language specification against it.

Embedded source artifacts:
* `backend/src/routes/webhooks.ts` — the `verifyWebhookSignature`
  middleware and the `processBkashWebhook` matcher/ledger path;
* the `check_sla_breaches` SQL function (database init script);
* the `alert-processing` worker (`alertWorker`) of the job module.

Conventions: machine integers and JS numbers that are used as epoch
timestamps or money amounts are modelled as `Int`; strings are Lean
`String`; nullable columns are `Option`; database tables are Lean lists
carried in an explicit state record.  Opaque audit-only JSON blobs
(`payload` on webhook logs, `webhookData` on collections) are not
modelled: no control flow reads them.
-/

namespace BankFileTracker

/-! ## Basic enumerations (from the Prisma/SQL enums) -/

/-- SQL enum `collection_type AS ENUM ('BKASH', 'NAGAD', 'CASH', 'BANK_DEPOSIT')`. -/
inductive CollectionType
  | BKASH | NAGAD | CASH | BANK_DEPOSIT
  deriving DecidableEq, Repr

/-- SQL enum `collection_status AS ENUM ('PENDING', 'APPROVED', 'REJECTED')`. -/
inductive CollectionStatus
  | PENDING | APPROVED | REJECTED
  deriving DecidableEq, Repr

/-- Reconciliation match type: `'EXACT'` or `'FUZZY'` (webhooks.ts line 438). -/
inductive MatchType
  | EXACT | FUZZY
  deriving DecidableEq, Repr

/-- SQL enum `alert_severity AS ENUM ('INFO', 'WARNING', 'ERROR', 'CRITICAL')`. -/
inductive Severity
  | INFO | WARNING | ERROR | CRITICAL
  deriving DecidableEq, Repr

/-! ## Signature middleware (`verifyWebhookSignature`, webhooks.ts lines 12-89)

`crypto.createHmac('sha256', secret).update(payload).digest('hex')` is an
external primitive; the embedding takes the hex-digest function `hmacHex`
as a parameter.  `Buffer.from(s, 'hex')` and `crypto.timingSafeEqual` are
modelled byte-exactly below. -/

/-- Value of a hex digit, accepting both cases (Node's hex decoder does). -/
def hexVal (c : Char) : Option Nat :=
  if '0' ≤ c ∧ c ≤ '9' then some (c.toNat - '0'.toNat)
  else if 'a' ≤ c ∧ c ≤ 'f' then some (c.toNat - 'a'.toNat + 10)
  else if 'A' ≤ c ∧ c ≤ 'F' then some (c.toNat - 'A'.toNat + 10)
  else none

/-- Node `Buffer.from(s, 'hex')`: decode complete leading hex pairs, stopping at
the first invalid character or incomplete pair. -/
def hexDecode : List Char → List Nat
  | c1 :: c2 :: rest =>
    match hexVal c1, hexVal c2 with
    | some h, some l => (16 * h + l) :: hexDecode rest
    | _, _ => []
  | _ => []

/-- JS `String.prototype.replace` with a plain-string pattern: remove the first
occurrence of `pat` (used as `signature.replace('sha256=', '')`). -/
def replaceFirstAux (pat : List Char) : List Char → List Char
  | [] => []
  | c :: rest =>
    if pat.isPrefixOf (c :: rest) then (c :: rest).drop pat.length
    else c :: replaceFirstAux pat rest

/-- JS `s.replace(pat, '')` for a plain-string `pat`. -/
def replaceFirst (pat s : String) : String :=
  ⟨replaceFirstAux pat.data s.data⟩

/-- JS `parseInt(s)` (radix 10): optional sign then leading digits;
`none` models `NaN`. -/
def parseIntJS (s : String) : Option Int :=
  let chars := s.data.dropWhile (fun c => c = ' ')
  let (sign, digits) :=
    match chars with
    | '-' :: rest => ((-1 : Int), rest)
    | '+' :: rest => ((1 : Int), rest)
    | rest => ((1 : Int), rest)
  let ds := digits.takeWhile Char.isDigit
  if ds.isEmpty then none
  else some (sign * (ds.foldl (fun acc c => 10 * acc + (c.toNat - '0'.toNat)) 0 : Nat))

/-- Outcome of the middleware: an early JSON error response with an HTTP
status code, or `next()`. -/
inductive MwResult
  | reject (status : Nat) (errorMsg : String)
  | proceed
  deriving DecidableEq, Repr

/-- The canonical string that is HMAC'd (webhooks.ts line 39):
`timestamp + "." + body` when a timestamp header is present, else the body
serialization alone.  `body` stands for `JSON.stringify(req.body)`. -/
def canonicalPayload (tsHeader : Option String) (body : String) : String :=
  match tsHeader with
  | some timestamp => timestamp ++ "." ++ body
  | none => body

/-- The `verifyWebhookSignature(provider)` middleware body (webhooks.ts lines
13-88).  `hmacHex secret payload` is the hex SHA-256 HMAC digest;
`secretEnv` is the provider's configured secret (`none` if unset);
`nowMs` is `Date.now()`.  The `try/catch` around the body surfaces the
`RangeError` thrown by `crypto.timingSafeEqual` on buffers of unequal
length as the 500 "Signature verification failed" response. -/
def verifyWebhookSignature (hmacHex : String → String → String)
    (secretEnv : Option String) (nowMs : Int)
    (sigHeader tsHeader : Option String) (body : String) : MwResult :=
  match sigHeader with
  | none => .reject 401 "Missing signature header"
  | some signature =>
    match secretEnv with
    | none => .reject 500 "Webhook not configured"
    | some secret =>
      let payload := canonicalPayload tsHeader body
      let expectedSignature := hmacHex secret payload
      let providedSignature := replaceFirst "sha256=" signature
      let expectedBytes := hexDecode expectedSignature.data
      let providedBytes := hexDecode providedSignature.data
      if expectedBytes.length ≠ providedBytes.length then
        .reject 500 "Signature verification failed"
      else if expectedBytes ≠ providedBytes then
        .reject 401 "Invalid signature"
      else
        match tsHeader with
        | some timestamp =>
          match parseIntJS timestamp with
          | some v =>
            if (nowMs - v * 1000).natAbs > 5 * 60 * 1000 then
              .reject 401 "Request timestamp too old"
            else .proceed
          | none => .proceed
        | none => .proceed

/-! ## JSON body parsing and re-serialization

The route signs `JSON.stringify(req.body)` (webhooks.ts line 39), where
`req.body` is produced by the `express.json()` body parser from the raw
request bytes — the raw bytes themselves are never signed.  To reason
about raw-byte alterations, the embedding includes an executable model of
that parse/re-serialize pipeline for the JSON fragment the webhook
payloads use: null, booleans, integer numbers, strings with the common
single-character escapes, arrays, and objects with insertion-ordered
string keys (the order `JSON.stringify` preserves).  IEEE-float
formatting and `\u` escapes are outside the model. -/

/-- The opening curly-brace character. -/
def lbrace : Char := Char.ofNat 123

/-- The closing curly-brace character. -/
def rbrace : Char := Char.ofNat 125

/-- A JSON value. -/
inductive Json where
  | jnull
  | jbool (b : Bool)
  | jnum (n : Int)
  | jstr (s : String)
  | jarr (elems : List Json)
  | jobj (fields : List (String × Json))

/-- Escaping of one character inside a serialized JSON string. -/
def escapeJsonChar (c : Char) : List Char :=
  if c = '"' then ['\\', '"']
  else if c = '\\' then ['\\', '\\']
  else if c = '\n' then ['\\', 'n']
  else if c = '\t' then ['\\', 't']
  else if c = '\r' then ['\\', 'r']
  else [c]

/-- Serialization of a JSON string literal, quotes included. -/
def quoteJson (s : String) : String :=
  "\"" ++ ⟨s.data.foldr (fun c acc => escapeJsonChar c ++ acc) []⟩ ++ "\""

mutual

/-- Model of `JSON.stringify`: canonical serialization with no
whitespace. -/
def jsonStringify : Json → String
  | .jnull => "null"
  | .jbool true => "true"
  | .jbool false => "false"
  | .jnum n => toString n
  | .jstr s => quoteJson s
  | .jarr elems => "[" ++ String.intercalate "," (stringifyElems elems) ++ "]"
  | .jobj fields =>
    lbrace.toString ++ String.intercalate "," (stringifyFields fields) ++
      rbrace.toString

/-- Serializations of the elements of an array. -/
def stringifyElems : List Json → List String
  | [] => []
  | j :: rest => jsonStringify j :: stringifyElems rest

/-- Serializations of the key/value pairs of an object. -/
def stringifyFields : List (String × Json) → List String
  | [] => []
  | (k, v) :: rest => (quoteJson k ++ ":" ++ jsonStringify v) :: stringifyFields rest

end

/-- JSON insignificant whitespace. -/
def isJsonWs (c : Char) : Bool :=
  c == ' ' || c == '\t' || c == '\n' || c == '\r'

/-- Skip insignificant whitespace. -/
def skipWs (cs : List Char) : List Char := cs.dropWhile isJsonWs

/-- The single-character JSON string escapes the model supports. -/
def unescapeJson (e : Char) : Option Char :=
  if e = '"' then some '"'
  else if e = '\\' then some '\\'
  else if e = '/' then some '/'
  else if e = 'n' then some '\n'
  else if e = 't' then some '\t'
  else if e = 'r' then some '\r'
  else none

/-- Body of a JSON string literal after the opening quote: returns the
decoded characters and the input after the closing quote. -/
def parseStringBody (fuel : Nat) (cs : List Char) : Option (List Char × List Char) :=
  match fuel, cs with
  | 0, _ => none
  | _, [] => none
  | f + 1, c :: rest =>
    if c = '"' then some ([], rest)
    else if c = '\\' then
      match rest with
      | e :: rest2 =>
        match unescapeJson e with
        | some d => (parseStringBody f rest2).map (fun p => (d :: p.1, p.2))
        | none => none
      | [] => none
    else (parseStringBody f rest).map (fun p => (c :: p.1, p.2))

/-- A non-empty run of decimal digits and the rest of the input. -/
def parseDigits (cs : List Char) : Option (Nat × List Char) :=
  let ds := cs.takeWhile Char.isDigit
  if ds.isEmpty then none
  else some (ds.foldl (fun acc c => 10 * acc + (c.toNat - '0'.toNat)) 0, cs.drop ds.length)

mutual

/-- Recursive-descent JSON value parser (fuelled). -/
def parseValue (fuel : Nat) (cs : List Char) : Option (Json × List Char) :=
  match fuel with
  | 0 => none
  | f + 1 =>
    match skipWs cs with
    | [] => none
    | c :: rest =>
      if c = '"' then
        match parseStringBody (rest.length + 1) rest with
        | some (s, r) => some (.jstr ⟨s⟩, r)
        | none => none
      else if c = lbrace then
        match skipWs rest with
        | d :: r2 =>
          if d = rbrace then some (.jobj [], r2)
          else
            match parseMembers f (d :: r2) with
            | some (fs, r3) => some (.jobj fs, r3)
            | none => none
        | [] => none
      else if c = '[' then
        match skipWs rest with
        | d :: r2 =>
          if d = ']' then some (.jarr [], r2)
          else
            match parseElements f (d :: r2) with
            | some (es, r3) => some (.jarr es, r3)
            | none => none
        | [] => none
      else if c = '-' then
        match parseDigits rest with
        | some (n, r) => some (.jnum (-(n : Int)), r)
        | none => none
      else if c.isDigit then
        match parseDigits (c :: rest) with
        | some (n, r) => some (.jnum (n : Int), r)
        | none => none
      else if c = 'n' then
        match rest with
        | 'u' :: 'l' :: 'l' :: r => some (.jnull, r)
        | _ => none
      else if c = 't' then
        match rest with
        | 'r' :: 'u' :: 'e' :: r => some (.jbool true, r)
        | _ => none
      else if c = 'f' then
        match rest with
        | 'a' :: 'l' :: 's' :: 'e' :: r => some (.jbool false, r)
        | _ => none
      else none

/-- One or more `"key": value` members up to the closing brace. -/
def parseMembers (fuel : Nat) (cs : List Char) :
    Option (List (String × Json) × List Char) :=
  match fuel with
  | 0 => none
  | f + 1 =>
    match skipWs cs with
    | c :: rest =>
      if c = '"' then
        match parseStringBody (rest.length + 1) rest with
        | some (k, r) =>
          match skipWs r with
          | ':' :: r2 =>
            match parseValue f r2 with
            | some (v, r3) =>
              match skipWs r3 with
              | ',' :: r4 =>
                match parseMembers f r4 with
                | some (fs, r5) => some ((⟨k⟩, v) :: fs, r5)
                | none => none
              | d :: r4 =>
                if d = rbrace then some ([(⟨k⟩, v)], r4) else none
              | [] => none
            | none => none
          | _ => none
        | none => none
      else none
    | [] => none

/-- One or more array elements up to the closing bracket. -/
def parseElements (fuel : Nat) (cs : List Char) : Option (List Json × List Char) :=
  match fuel with
  | 0 => none
  | f + 1 =>
    match parseValue f cs with
    | some (v, r) =>
      match skipWs r with
      | ',' :: r2 =>
        match parseElements f r2 with
        | some (es, r3) => some (v :: es, r3)
        | none => none
      | ']' :: r2 => some ([v], r2)
      | _ => none
    | none => none

end

/-- Model of `JSON.parse` on the supported fragment: a single value with
optional surrounding whitespace; trailing garbage is rejected. -/
def jsonParse (s : String) : Option Json :=
  match parseValue (s.length + 1) s.data with
  | some (j, r) => if (skipWs r).isEmpty then some j else none
  | none => none

/-- The `express.json()` body-parsing step composed with the signature
middleware: the raw request bytes are parsed, and the string handed to
the HMAC is `JSON.stringify(req.body)` — the re-serialization of the
parse result (webhooks.ts line 39) — never the raw bytes.  `none` models
the body parser rejecting malformed JSON with a 400 before the middleware
runs. -/
def verifyWebhookSignatureFromRaw (hmacHex : String → String → String)
    (secretEnv : Option String) (nowMs : Int)
    (sigHeader tsHeader : Option String) (rawBody : String) : Option MwResult :=
  (jsonParse rawBody).map (fun body =>
    verifyWebhookSignature hmacHex secretEnv nowMs sigHeader tsHeader
      (jsonStringify body))

/-! ## Persistent state: collections, webhook logs, reconciliations

Rows carry exactly the columns that `processBkashWebhook` reads or
writes.  Timestamps are epoch milliseconds (`Int`), amounts are `Int`. -/

/-- A `collections` row as used by the webhook matcher. -/
structure Collection where
  id : Nat
  ctype : CollectionType
  txnId : Option String
  amount : Int
  collectionDate : Int
  status : CollectionStatus
  isMatched : Bool
  createdAt : Int
  deriving DecidableEq, Repr

/-- A `webhookLog` row (`prisma.webhookLog.create`, webhooks.ts line 358). -/
structure WebhookLogRow where
  id : Nat
  provider : String
  txnId : String
  amount : Int
  status : String
  processedAt : Int
  deriving DecidableEq, Repr

/-- A `reconciliation` row (`prisma.reconciliation.create`, line 432). -/
structure ReconciliationRow where
  collectionId : Nat
  webhookLogId : Nat
  status : String
  matchedAt : Int
  matchType : MatchType
  deriving DecidableEq, Repr

/-- The database slice the webhook path touches. `nextId` models id
generation for inserted webhook-log rows. -/
structure DB where
  collections : List Collection
  webhookLogs : List WebhookLogRow
  reconciliations : List ReconciliationRow
  nextId : Nat
  deriving DecidableEq, Repr

/-- The validated bKash payload (`bkashWebhookSchema`): `txnId`, positive
`amount`, `currency` (default `BDT`), `status`, `date` — held here already
parsed to epoch milliseconds `dateMs` (`new Date(data.date).getTime()`) —
and two optional audit fields. -/
structure BkashPayload where
  txnId : String
  amount : Int
  currency : String
  status : String
  dateMs : Int
  customerMobile : Option String
  merchantInvoiceNumber : Option String
  deriving DecidableEq, Repr

/-- Return value of `processBkashWebhook`. -/
structure WebhookResult where
  matched : Bool
  collectionId : Option Nat
  webhookLogId : Nat
  deriving DecidableEq, Repr

/-! ## `processBkashWebhook` (webhooks.ts lines 354-471)

The body is split at its `await` points into: the webhook-log insert, the
(pure, read-only) candidate search, and the claim commit.  The sequential
function is literally the composition; the split pieces also serve to
express interleavings of two concurrently delivered events. -/

/-- The test `data.status === 'SUCCESS' || data.status === 'COMPLETED'` (line 372). -/
def isSuccessStatus (s : String) : Bool :=
  s == "SUCCESS" || s == "COMPLETED"

/-- Filter of the exact-match query (lines 374-379): same provider type,
`txnId` equal to the event's, status `PENDING`. -/
def bkashExactPred (data : BkashPayload) (c : Collection) : Bool :=
  c.ctype == .BKASH && c.txnId == some data.txnId && c.status == .PENDING

/-- Exact-match lookup: `findFirst` = first row in table order. -/
def bkashExactFind (data : BkashPayload) (db : DB) : Option Collection :=
  db.collections.find? (bkashExactPred data)

/-- Filter of the fuzzy-match query (lines 395-405): same provider type,
equal amount, `collectionDate` in `[paymentDate - 24h, paymentDate + 24h]`
(`gte`/`lte`, both inclusive), status `PENDING`, `isMatched: false`. -/
def bkashFuzzyPred (data : BkashPayload) (c : Collection) : Bool :=
  c.ctype == .BKASH && c.amount == data.amount &&
  decide (data.dateMs - 24 * 60 * 60 * 1000 ≤ c.collectionDate) &&
  decide (c.collectionDate ≤ data.dateMs + 24 * 60 * 60 * 1000) &&
  c.status == .PENDING && c.isMatched == false

/-- All rows satisfying the fuzzy-match filter. -/
def bkashFuzzyCandidates (data : BkashPayload) (db : DB) : List Collection :=
  db.collections.filter (bkashFuzzyPred data)

/-- Prisma `findFirst` with `orderBy: { createdAt: 'asc' }`: the first row (in
table order) among those with minimal `createdAt`. -/
def findMinCreatedAt : List Collection → Option Collection
  | [] => none
  | c :: rest =>
    match findMinCreatedAt rest with
    | none => some c
    | some m => if c.createdAt ≤ m.createdAt then some c else some m

/-- Fuzzy-match lookup (lines 395-416). -/
def bkashFuzzyFind (data : BkashPayload) (db : DB) : Option Collection :=
  findMinCreatedAt (bkashFuzzyCandidates data db)

/-- Candidate selection (lines 370-417): only for SUCCESS/COMPLETED
events; exact match first, fuzzy only if the exact query found nothing. -/
def bkashSelect (data : BkashPayload) (db : DB) : Option Collection :=
  if isSuccessStatus data.status then
    match bkashExactFind data db with
    | some c => some c
    | none => bkashFuzzyFind data db
  else none

/-- The webhook-log insert (lines 358-367): unconditionally appends a new
row; there is no uniqueness check on `(provider, txnId)`. -/
def bkashLogStep (data : BkashPayload) (nowMs : Int) (db : DB) : DB × Nat :=
  ({ db with
      webhookLogs := db.webhookLogs ++
        [⟨db.nextId, "BKASH", data.txnId, data.amount, data.status, nowMs⟩],
      nextId := db.nextId + 1 },
   db.nextId)

/-- The `collection.update` of the claim (lines 421-429): keyed by `id`
alone, it sets `txnId` to the event's id (unconditionally), `isMatched`,
and status `APPROVED` on every row with that id. -/
def claimUpdate (data : BkashPayload) (cid : Nat) (c : Collection) : Collection :=
  if c.id == cid then
    { c with txnId := some data.txnId, isMatched := true, status := .APPROVED }
  else c

/-- The claim commit (lines 419-453): if a candidate was selected, update
it and append a `MATCHED` reconciliation whose `matchType` compares the
event's id with the candidate's `txnId` as read at selection time
(line 438); otherwise report unmatched. -/
def bkashCommit (data : BkashPayload) (logId : Nat) (nowMs : Int)
    (cand : Option Collection) (db : DB) : DB × WebhookResult :=
  match cand with
  | some matchedCollection =>
    ({ db with
        collections := db.collections.map (claimUpdate data matchedCollection.id),
        reconciliations := db.reconciliations ++
          [⟨matchedCollection.id, logId, "MATCHED", nowMs,
            if some data.txnId == matchedCollection.txnId then .EXACT else .FUZZY⟩] },
     ⟨true, some matchedCollection.id, logId⟩)
  | none => (db, ⟨false, none, logId⟩)

/-- The function `processBkashWebhook` (lines 354-471), sequentially: insert the
webhook log, select a candidate, commit the claim. -/
def processBkashWebhook (data : BkashPayload) (nowMs : Int) (db : DB) :
    DB × WebhookResult :=
  let step := bkashLogStep data nowMs db
  bkashCommit data step.2 nowMs (bkashSelect data step.1) step.1

/-! ## The bKash route (webhooks.ts lines 143-171) behind the middleware -/

/-- Response of `POST /webhook/bkash` as seen by the provider. -/
inductive RouteResponse
  | err (status : Nat) (errorMsg : String)
  | ok (matched : Bool) (collectionId : Option Nat)
  deriving DecidableEq, Repr

/-- An inbound request: signature/timestamp headers, the serialized body
(`JSON.stringify(req.body)`, signed payload), and the body as parsed by
`bkashWebhookSchema` (`none` models a `ZodError`, which the route converts
to a 400 `validationError('Invalid webhook payload')`). -/
structure BkashRequest where
  sigHeader : Option String
  tsHeader : Option String
  bodyRaw : String
  bodyParsed : Option BkashPayload

/-- The route pipeline: middleware first — any middleware rejection is
returned with nothing touched — then schema parse, then
`processBkashWebhook`. -/
def handleBkashRoute (hmacHex : String → String → String)
    (secretEnv : Option String) (nowMs : Int)
    (req : BkashRequest) (db : DB) : DB × RouteResponse :=
  match verifyWebhookSignature hmacHex secretEnv nowMs
      req.sigHeader req.tsHeader req.bodyRaw with
  | .reject status msg => (db, .err status msg)
  | .proceed =>
    match req.bodyParsed with
    | none => (db, .err 400 "Invalid webhook payload")
    | some data =>
      let out := processBkashWebhook data nowMs db
      (out.1, .ok out.2.matched out.2.collectionId)

/-! ## `check_sla_breaches` (database init script)

The plpgsql function works in epoch seconds
(`EXTRACT(EPOCH FROM (NOW() - created_at))`); rows here mirror the SQL
tables, with only the columns the function reads. -/

/-- A `banks` row: `(b.sla_settings->>'depositHours')::INTEGER`, `none`
when the key is absent. -/
structure BankRow where
  id : Nat
  depositHours : Option Int
  updateDays : Option Int
  deriving DecidableEq, Repr

/-- An `accounts` row as read by the sweep. -/
structure AccountRow where
  id : Nat
  bankId : Nat
  createdAtSec : Int
  lastContactDateSec : Option Int
  deriving DecidableEq, Repr

/-- A `collections` row as read by the sweep (epoch seconds). -/
structure SlaCollectionRow where
  accountId : Nat
  ctype : CollectionType
  status : CollectionStatus
  createdAtSec : Int
  deriving DecidableEq, Repr

/-- A row of the `check_sla_breaches` result table. -/
structure SlaBreachRow where
  accountId : Nat
  breachType : String
  breachHours : Int
  severity : Severity
  deriving DecidableEq, Repr

/-- The deposit-branch severity `CASE` (init script): CRITICAL over
172800 s (48 h), ERROR over 86400 s (24 h), else WARNING — fixed absolute
thresholds, not depending on the bank row. -/
def depositSeverity (elapsedSec : Int) : Severity :=
  if elapsedSec > 172800 then .CRITICAL
  else if elapsedSec > 86400 then .ERROR
  else .WARNING

/-- The emission threshold
`COALESCE((b.sla_settings->>'depositHours')::INTEGER * 3600, 172800)`. -/
def depositThresholdSec (b : BankRow) : Int :=
  match b.depositHours with
  | some h => h * 3600
  | none => 172800

/-- The deposit branch of `check_sla_breaches`: PENDING collections of
type CASH or BANK_DEPOSIT (inner-joined to their account and bank) whose
age exceeds the bank's threshold, each yielding a `DEPOSIT_DELAY` row. -/
def checkSlaDeposits (nowSec : Int) (colls : List SlaCollectionRow)
    (accounts : List AccountRow) (banks : List BankRow) : List SlaBreachRow :=
  colls.filterMap (fun c =>
    match accounts.find? (fun a => a.id == c.accountId) with
    | none => none
    | some a =>
      match banks.find? (fun b => b.id == a.bankId) with
      | none => none
      | some b =>
        let elapsed := nowSec - c.createdAtSec
        if c.status == .PENDING &&
            (c.ctype == .CASH || c.ctype == .BANK_DEPOSIT) &&
            decide (elapsed > depositThresholdSec b) then
          some ⟨c.accountId, "DEPOSIT_DELAY", elapsed / 3600, depositSeverity elapsed⟩
        else none)

/-- Modelled from the spec: the severity scale the specification describes
for DEPOSIT_DELAY, escalating *relative to the bank's configured SLA* —
CRITICAL when the elapsed time exceeds twice the SLA (the spec's worked
example: 50 h against a 24 h SLA is CRITICAL because elapsed > 2×SLA),
ERROR when it exceeds the SLA, else WARNING.  This definition follows the
spec's words, to be compared against `depositSeverity` from the source. -/
def specRelativeSeverity (slaSec elapsedSec : Int) : Severity :=
  if elapsedSec > 2 * slaSec then .CRITICAL
  else if elapsedSec > slaSec then .ERROR
  else .WARNING

/-! ## The alert worker (`alertWorker`, jobs module lines 207-258) -/

/-- The payload fields that `generateAlertTitle` / `generateAlertDescription`
interpolate. -/
structure AlertJobPayload where
  fileNo : String
  daysSinceUpdate : String
  ptpDate : String
  ptpAmount : String
  overdueAmount : String
  deriving DecidableEq, Repr

/-- The `AlertJobData` shape: alert type, optional account/agent, payload. -/
structure AlertJobData where
  type : String
  accountId : Option Nat
  agentId : Option Nat
  data : AlertJobPayload
  deriving DecidableEq, Repr

/-- An `alert` row as created by the worker. -/
structure AlertRow where
  type : String
  title : String
  description : String
  severity : Severity
  accountId : Option Nat
  agentId : Option Nat
  createdAtMs : Int
  deriving DecidableEq, Repr

/-- Helper `generateAlertTitle` (jobs module lines 506-519). -/
def generateAlertTitle (type : String) (data : AlertJobPayload) : String :=
  if type == "SLA_BREACH" then "SLA Breach: Account " ++ data.fileNo
  else if type == "MISSED_PTP" then "Missed PTP: Account " ++ data.fileNo
  else if type == "HIGH_OVERDUE" then "High Overdue Amount: Account " ++ data.fileNo
  else if type == "NO_UPDATE" then "No Recent Updates: Account " ++ data.fileNo
  else "System Alert: " ++ type

/-- Helper `generateAlertDescription` (jobs module lines 521-532). -/
def generateAlertDescription (type : String) (data : AlertJobPayload) : String :=
  if type == "SLA_BREACH" then
    "Account " ++ data.fileNo ++ " has breached SLA requirements. No update for " ++
      data.daysSinceUpdate ++ " days."
  else if type == "MISSED_PTP" then
    "Account " ++ data.fileNo ++ " missed PTP date " ++ data.ptpDate ++
      ". Amount: ৳" ++ data.ptpAmount
  else if type == "HIGH_OVERDUE" then
    "Account " ++ data.fileNo ++ " has high overdue amount: ৳" ++ data.overdueAmount
  else "Alert triggered for " ++ type

/-- Helper `getAlertSeverity` (jobs module lines 534-547). -/
def getAlertSeverity (type : String) : Severity :=
  if type == "SLA_BREACH" || type == "MISSED_PTP" then .ERROR
  else if type == "HIGH_OVERDUE" then .CRITICAL
  else if type == "NO_UPDATE" || type == "VARIANCE" then .WARNING
  else .INFO

/-- One run of the alert worker's job handler (lines 210-253):
`prisma.alert.create` is called unconditionally — there is no lookup for
an existing alert of the same type/account/day before inserting.  (The
subsequent e-mail fan-out does not touch the alert table and is not
modelled.) -/
def processAlertJob (nowMs : Int) (job : AlertJobData)
    (alerts : List AlertRow) : List AlertRow :=
  alerts ++ [⟨job.type,
              generateAlertTitle job.type job.data,
              generateAlertDescription job.type job.data,
              getAlertSeverity job.type,
              job.accountId, job.agentId, nowMs⟩]

/-- The calendar day (UTC) an alert row was created on. -/
def alertDay (a : AlertRow) : Int := a.createdAtMs / 86400000

/-! ## Invariants used to state matching properties -/

/-- Number of `MATCHED` reconciliation rows pointing at a collection id. -/
def matchedReconCountFor (db : DB) (cid : Nat) : Nat :=
  (db.reconciliations.filter
    (fun r => r.collectionId == cid && r.status == "MATCHED")).length

/-- Every collection is the target of at most one `MATCHED`
reconciliation. -/
def MatchedAtMostOnce (db : DB) : Prop :=
  ∀ cid, matchedReconCountFor db cid ≤ 1

/-- Every collection already referenced by a reconciliation row has left
the `PENDING` state. -/
def ReconTargetsSettled (db : DB) : Prop :=
  ∀ r ∈ db.reconciliations, ∀ c ∈ db.collections,
    c.id = r.collectionId → c.status ≠ CollectionStatus.PENDING

/-! ## Helper lemmas -/

theorem findMinCreatedAt_ne_none {l : List Collection} (h : l ≠ []) :
    findMinCreatedAt l ≠ none := by
  cases l with
  | nil => exact absurd rfl h
  | cons a rest =>
    simp only [findMinCreatedAt]
    cases findMinCreatedAt rest with
    | none => simp
    | some m => by_cases hle : a.createdAt ≤ m.createdAt <;> simp [hle]

theorem findMinCreatedAt_mem {l : List Collection} {c : Collection}
    (h : findMinCreatedAt l = some c) : c ∈ l := by
  induction l generalizing c with
  | nil => simp [findMinCreatedAt] at h
  | cons a rest ih =>
    cases hr : findMinCreatedAt rest with
    | none =>
      simp only [findMinCreatedAt, hr, Option.some.injEq] at h
      simp [← h]
    | some m =>
      simp only [findMinCreatedAt, hr] at h
      by_cases hle : a.createdAt ≤ m.createdAt
      · rw [if_pos hle, Option.some.injEq] at h
        simp [← h]
      · rw [if_neg hle, Option.some.injEq] at h
        exact List.mem_cons_of_mem a (ih (hr.trans (by rw [h])))

theorem findMinCreatedAt_le {l : List Collection} {m : Collection}
    (h : findMinCreatedAt l = some m) :
    ∀ x ∈ l, m.createdAt ≤ x.createdAt := by
  induction l generalizing m with
  | nil => simp [findMinCreatedAt] at h
  | cons a rest ih =>
    cases hr : findMinCreatedAt rest with
    | none =>
      have hrest : rest = [] := by
        by_contra hne
        exact findMinCreatedAt_ne_none hne hr
      subst hrest
      simp only [findMinCreatedAt, Option.some.injEq] at h
      intro x hx
      simp only [List.mem_singleton] at hx
      subst hx
      exact h ▸ le_refl _
    | some k =>
      simp only [findMinCreatedAt, hr] at h
      intro x hx
      rcases List.mem_cons.mp hx with hxa | hxr
      · subst hxa
        by_cases hle : x.createdAt ≤ k.createdAt
        · rw [if_pos hle, Option.some.injEq] at h
          exact h ▸ le_refl _
        · rw [if_neg hle, Option.some.injEq] at h
          exact h ▸ le_of_not_le hle
      · by_cases hle : a.createdAt ≤ k.createdAt
        · rw [if_pos hle, Option.some.injEq] at h
          exact h ▸ le_trans hle (ih hr x hxr)
        · rw [if_neg hle, Option.some.injEq] at h
          exact h ▸ ih hr x hxr

theorem findMinCreatedAt_isSome {l : List Collection} (h : l ≠ []) :
    (findMinCreatedAt l).isSome := by
  cases l with
  | nil => exact absurd rfl h
  | cons a rest =>
    unfold findMinCreatedAt
    cases findMinCreatedAt rest with
    | none => simp
    | some m => by_cases hle : a.createdAt ≤ m.createdAt <;> simp [hle]

/-- A selected candidate is a `PENDING` row of the collections table. -/
theorem bkashSelect_pending {data : BkashPayload} {db : DB} {c : Collection}
    (h : bkashSelect data db = some c) :
    c ∈ db.collections ∧ c.status = CollectionStatus.PENDING := by
  unfold bkashSelect at h
  cases hsucc : isSuccessStatus data.status with
  | false => rw [hsucc] at h; simp at h
  | true =>
    rw [hsucc] at h
    simp only [if_true] at h
    cases he : bkashExactFind data db with
    | some e =>
      rw [he] at h
      simp only [Option.some.injEq] at h
      subst h
      have hmem := List.mem_of_find?_eq_some he
      have hpred := List.find?_some he
      simp only [bkashExactPred, Bool.and_eq_true, beq_iff_eq] at hpred
      exact ⟨hmem, hpred.2⟩
    | none =>
      rw [he] at h
      have hmem := findMinCreatedAt_mem h
      rw [bkashFuzzyCandidates, List.mem_filter] at hmem
      have hpred := hmem.2
      simp only [bkashFuzzyPred, Bool.and_eq_true, beq_iff_eq,
        decide_eq_true_eq] at hpred
      exact ⟨hmem.1, hpred.1.2⟩

/-- The webhook-log insert leaves collections and reconciliations
untouched and returns the fresh log id. -/
theorem bkashLogStep_fields (data : BkashPayload) (nowMs : Int) (db : DB) :
    (bkashLogStep data nowMs db).1.collections = db.collections ∧
    (bkashLogStep data nowMs db).1.reconciliations = db.reconciliations ∧
    (bkashLogStep data nowMs db).2 = db.nextId ∧
    (bkashLogStep data nowMs db).1.webhookLogs.length =
      db.webhookLogs.length + 1 := by
  simp [bkashLogStep]

/-! ## Concrete fixtures used by witnesses and counterexamples -/

/-- A pending BKASH collection already carrying the event's id. -/
def collT1 : Collection := ⟨1, .BKASH, some "T1", 100, 0, .PENDING, false, 0⟩

/-- A database holding just `collT1`. -/
def dbT1 : DB := ⟨[collT1], [], [], 10⟩

/-- A SUCCESS bKash event with external id `T1`. -/
def payT1 : BkashPayload := ⟨"T1", 100, "BDT", "SUCCESS", 0, none, none⟩

/-- A pending BKASH collection with a pre-existing, different id `OLD`. -/
def collOld : Collection := ⟨1, .BKASH, some "OLD", 500, 0, .PENDING, false, 0⟩

/-- A database holding just `collOld`. -/
def dbOld : DB := ⟨[collOld], [], [], 20⟩

/-- A SUCCESS event with id `A`, fuzzy-compatible with `collOld`. -/
def payA : BkashPayload := ⟨"A", 500, "BDT", "SUCCESS", 0, none, none⟩

/-- A second SUCCESS event with id `B`, also fuzzy-compatible with
`collOld`. -/
def payB : BkashPayload := ⟨"B", 500, "BDT", "SUCCESS", 0, none, none⟩

/-! ## C1 — idempotent redelivery -/

/-- C1 counterexample.  The claim asserts that delivering an identical
payload twice yields exactly one WebhookDeliveryRecord and that the
redelivery returns the previously stored outcome without re-running the
matcher.  On the code, redelivering `payT1` to `dbT1`: the first delivery
matches (`matched = true`); the second delivery inserts a second
`webhookLog` row and re-runs the matcher, which now finds nothing
(`matched = false`) — not the stored `MATCHED` outcome. -/
theorem C1_idempotence_counterexample :
    (processBkashWebhook payT1 1000 dbT1).2.matched = true ∧
    (processBkashWebhook payT1 2000
        (processBkashWebhook payT1 1000 dbT1).1).2.matched = false ∧
    (processBkashWebhook payT1 2000
        (processBkashWebhook payT1 1000 dbT1).1).1.webhookLogs.length = 2 ∧
    (processBkashWebhook payT1 2000
        (processBkashWebhook payT1 1000 dbT1).1).1.reconciliations.length = 1 := by
  decide

/-- C1 (amended): there is no idempotency key — every delivery, duplicate
or not, inserts exactly one new `webhookLog` row and re-runs the matcher;
a single delivery appends at most one reconciliation. -/
theorem C1_log_per_delivery (data : BkashPayload) (nowMs : Int) (db : DB) :
    (processBkashWebhook data nowMs db).1.webhookLogs.length =
      db.webhookLogs.length + 1 ∧
    (processBkashWebhook data nowMs db).1.reconciliations.length ≤
      db.reconciliations.length + 1 := by
  cases hsel : bkashSelect data (bkashLogStep data nowMs db).1 with
  | some mc =>
    simp only [processBkashWebhook]
    rw [hsel]
    simp [bkashCommit, bkashLogStep]
  | none =>
    simp only [processBkashWebhook]
    rw [hsel]
    simp [bkashCommit, bkashLogStep]

/-! ## C6 — window boundary -/

/-- C6: the fuzzy window is symmetric and inclusive: a collection whose
`collectionDate` is exactly 24 h (86400000 ms) before or after the event
date is an eligible fuzzy candidate; one lying 25 h (90000000 ms) away on
either side is not. -/
theorem C6_window_boundary (data : BkashPayload) (db : DB) (c : Collection)
    (h1 : c.ctype = CollectionType.BKASH) (h2 : c.amount = data.amount)
    (h3 : c.status = CollectionStatus.PENDING) (h4 : c.isMatched = false) :
    (c ∈ db.collections →
      (c.collectionDate = data.dateMs - 86400000 ∨
       c.collectionDate = data.dateMs + 86400000) →
      c ∈ bkashFuzzyCandidates data db) ∧
    ((c.collectionDate = data.dateMs - 90000000 ∨
      c.collectionDate = data.dateMs + 90000000) →
      c ∉ bkashFuzzyCandidates data db) := by
  constructor
  · intro hmem hd
    rw [bkashFuzzyCandidates, List.mem_filter]
    refine ⟨hmem, ?_⟩
    simp only [bkashFuzzyPred, h1, h2, h3, h4, Bool.and_eq_true, beq_iff_eq,
      decide_eq_true_eq, true_and, and_true]
    rcases hd with hd | hd <;> rw [hd] <;> omega
  · intro hd hmem
    rw [bkashFuzzyCandidates, List.mem_filter] at hmem
    have hpred := hmem.2
    simp only [bkashFuzzyPred, Bool.and_eq_true, beq_iff_eq,
      decide_eq_true_eq] at hpred
    rcases hd with hd | hd <;> omega

/-- Event and rows exercising the C6 boundaries. -/
def payWin : BkashPayload := ⟨"W1", 700, "BDT", "SUCCESS", 100000000, none, none⟩

/-- A collection exactly at the lower edge of the window. -/
def collEdge : Collection :=
  ⟨2, .BKASH, none, 700, 100000000 - 86400000, .PENDING, false, 0⟩

/-- A collection one hour beyond the upper edge of the window. -/
def collFar : Collection :=
  ⟨3, .BKASH, none, 700, 100000000 + 90000000, .PENDING, false, 0⟩

/-- A database holding the two boundary rows. -/
def dbWin : DB := ⟨[collEdge, collFar], [], [], 30⟩

/-- C6 witness: the edge row is an eligible candidate, the row one hour
outside is not. -/
theorem C6_window_boundary_witness :
    collEdge ∈ bkashFuzzyCandidates payWin dbWin ∧
    collFar ∉ bkashFuzzyCandidates payWin dbWin :=
  ⟨(C6_window_boundary payWin dbWin collEdge rfl rfl rfl rfl).1
      (by decide) (Or.inl rfl),
   (C6_window_boundary payWin dbWin collFar rfl rfl rfl rfl).2
      (Or.inr rfl)⟩

/-! ## C9 — sweep dedup -/

/-- An SLA-breach alert job for account 1. -/
def jobSla : AlertJobData := ⟨"SLA_BREACH", some 1, none, ⟨"F-1", "3", "", "", ""⟩⟩

/-- C9 counterexample.  The claim asserts at most one alert candidate per
(type, account, day).  Processing the same job twice on the same day
(at 00:00 and 01:00 UTC) creates two alert rows with identical
(type, account, day). -/
theorem C9_dedup_counterexample :
    (processAlertJob 3600000 jobSla (processAlertJob 0 jobSla [])).length = 2 ∧
    (processAlertJob 3600000 jobSla (processAlertJob 0 jobSla [])).map
        (fun a => (a.type, a.accountId, alertDay a)) =
      [("SLA_BREACH", some 1, 0), ("SLA_BREACH", some 1, 0)] := by
  decide

/-- C9 (amended): the alert worker performs no dedup at all — every
processed job unconditionally appends one new alert row, and all
previously stored alerts are retained unchanged. -/
theorem C9_no_dedup (nowMs : Int) (job : AlertJobData) (alerts : List AlertRow) :
    (processAlertJob nowMs job alerts).length = alerts.length + 1 ∧
    (processAlertJob nowMs job alerts).take alerts.length = alerts := by
  unfold processAlertJob
  exact ⟨by simp, List.take_left alerts _⟩

/-! ## C4 — exact-match precedence -/

/-- C4: for a SUCCESS event, if some PENDING collection of the event's
provider already carries the event's external id, the matcher selects the
exact-match result: the webhook reports that collection as matched and the
recorded reconciliation has match type EXACT, regardless of any fuzzy
candidates; and whenever the exact query finds nothing, selection falls
through to the fuzzy query. -/
theorem C4_exact_match_precedence (data : BkashPayload) (nowMs : Int) (db : DB)
    (hs : isSuccessStatus data.status = true)
    (hex : ∃ c ∈ db.collections, bkashExactPred data c = true) :
    ∃ e, bkashExactFind data db = some e ∧
      e.txnId = some data.txnId ∧
      (processBkashWebhook data nowMs db).2.matched = true ∧
      (processBkashWebhook data nowMs db).2.collectionId = some e.id ∧
      (processBkashWebhook data nowMs db).1.reconciliations =
        db.reconciliations ++
          [⟨e.id, db.nextId, "MATCHED", nowMs, MatchType.EXACT⟩] ∧
      (∀ db2 : DB, bkashExactFind data db2 = none →
        bkashSelect data db2 = bkashFuzzyFind data db2) := by
  obtain ⟨c, hc, hp⟩ := hex
  have hsome : (db.collections.find? (bkashExactPred data)).isSome :=
    List.find?_isSome.mpr ⟨c, hc, hp⟩
  obtain ⟨e, he⟩ := Option.isSome_iff_exists.mp hsome
  have hetxn : e.txnId = some data.txnId := by
    have hpe := List.find?_some he
    simp only [bkashExactPred, Bool.and_eq_true, beq_iff_eq] at hpe
    exact hpe.1.2
  have hfind1 : bkashExactFind data (bkashLogStep data nowMs db).1 = some e := he
  have hsel : bkashSelect data (bkashLogStep data nowMs db).1 = some e := by
    simp [bkashSelect, hs, hfind1]
  refine ⟨e, he, hetxn, ?_, ?_, ?_, ?_⟩
  · simp only [processBkashWebhook]
    rw [hsel]
    simp [bkashCommit]
  · simp only [processBkashWebhook]
    rw [hsel]
    simp [bkashCommit]
  · simp only [processBkashWebhook]
    rw [hsel]
    simp [bkashCommit, bkashLogStep, hetxn]
  · intro db2 hnone
    simp [bkashSelect, hs, hnone]

/-- A fuzzy-eligible bait row for the precedence witness: same amount and
in-window date, but a different pre-set external id, listed first. -/
def collBait : Collection := ⟨4, .BKASH, some "ZZ", 100, 0, .PENDING, false, 0⟩

/-- Database where both a fuzzy bait and an exact candidate exist. -/
def dbPrec : DB := ⟨[collBait, collT1], [], [], 40⟩

/-- C4 witness: with both rows present, the event with id `T1` claims the
exact-carrying row with match type EXACT. -/
theorem C4_exact_match_precedence_witness :
    ∃ e, bkashExactFind payT1 dbPrec = some e ∧
      e.txnId = some payT1.txnId ∧
      (processBkashWebhook payT1 0 dbPrec).2.matched = true ∧
      (processBkashWebhook payT1 0 dbPrec).2.collectionId = some e.id ∧
      (processBkashWebhook payT1 0 dbPrec).1.reconciliations =
        dbPrec.reconciliations ++
          [⟨e.id, dbPrec.nextId, "MATCHED", 0, MatchType.EXACT⟩] ∧
      (∀ db2 : DB, bkashExactFind payT1 db2 = none →
        bkashSelect payT1 db2 = bkashFuzzyFind payT1 db2) :=
  C4_exact_match_precedence payT1 0 dbPrec (by decide)
    ⟨collT1, by decide, by decide⟩

/-! ## C5 — FIFO tie-break -/

/-- C5: for a SUCCESS event with no exact match and a non-empty fuzzy
candidate set, the matcher selects a candidate whose `createdAt` is
minimal among all candidates (oldest first), and the webhook reports that
candidate as matched. -/
theorem C5_fifo_tie_break (data : BkashPayload) (nowMs : Int) (db : DB)
    (c : Collection)
    (hs : isSuccessStatus data.status = true)
    (hnone : bkashExactFind data db = none)
    (hc : c ∈ bkashFuzzyCandidates data db) :
    ∃ sel, bkashFuzzyFind data db = some sel ∧
      sel ∈ bkashFuzzyCandidates data db ∧
      (∀ x ∈ bkashFuzzyCandidates data db, sel.createdAt ≤ x.createdAt) ∧
      (processBkashWebhook data nowMs db).2.matched = true ∧
      (processBkashWebhook data nowMs db).2.collectionId = some sel.id := by
  have hne : bkashFuzzyCandidates data db ≠ [] := List.ne_nil_of_mem hc
  obtain ⟨sel, hsel⟩ := Option.isSome_iff_exists.mp
    (findMinCreatedAt_isSome hne)
  have hmem := findMinCreatedAt_mem hsel
  have hle := findMinCreatedAt_le hsel
  have hfind1 : bkashExactFind data (bkashLogStep data nowMs db).1 = none := hnone
  have hfuzzy1 : bkashFuzzyFind data (bkashLogStep data nowMs db).1 = some sel := hsel
  have hselect : bkashSelect data (bkashLogStep data nowMs db).1 = some sel := by
    simp [bkashSelect, hs, hfind1, hfuzzy1]
  refine ⟨sel, hsel, hmem, hle, ?_, ?_⟩
  · simp only [processBkashWebhook]
    rw [hselect]
    simp [bkashCommit]
  · simp only [processBkashWebhook]
    rw [hselect]
    simp [bkashCommit]

/-- A younger fuzzy candidate (created at 50), listed first. -/
def collYoung : Collection := ⟨5, .BKASH, none, 300, 0, .PENDING, false, 50⟩

/-- An older fuzzy candidate (created at 10), listed second. -/
def collOldest : Collection := ⟨6, .BKASH, none, 300, 1000, .PENDING, false, 10⟩

/-- Database with the two competing fuzzy candidates. -/
def dbFifo : DB := ⟨[collYoung, collOldest], [], [], 60⟩

/-- A SUCCESS event fuzzy-compatible with both candidates. -/
def payFifo : BkashPayload := ⟨"F9", 300, "BDT", "SUCCESS", 0, none, none⟩

/-- C5 witness: between the two candidates, the earlier-created one wins
even though it is listed second. -/
theorem C5_fifo_tie_break_witness :
    ∃ sel, bkashFuzzyFind payFifo dbFifo = some sel ∧
      sel ∈ bkashFuzzyCandidates payFifo dbFifo ∧
      (∀ x ∈ bkashFuzzyCandidates payFifo dbFifo, sel.createdAt ≤ x.createdAt) ∧
      (processBkashWebhook payFifo 0 dbFifo).2.matched = true ∧
      (processBkashWebhook payFifo 0 dbFifo).2.collectionId = some sel.id :=
  C5_fifo_tie_break payFifo 0 dbFifo collYoung (by decide) (by decide) (by decide)

/-! ## C7 — external id backfill -/

/-- C7 counterexample.  The claim asserts the external id is written only
if previously empty, so that a fuzzy-claimed candidate with a different
pre-existing id keeps its original id.  On the code, the event `payA`
(id `A`) fuzzy-matches `collOld` (pre-set id `OLD`) and the update
overwrites the id: the stored row ends with `txnId = some "A"`, and the
reconciliation records the claim as FUZZY. -/
theorem C7_backfill_counterexample :
    collOld.txnId = some "OLD" ∧
    (processBkashWebhook payA 50 dbOld).1.collections =
      [⟨1, .BKASH, some "A", 500, 0, .APPROVED, true, 0⟩] ∧
    (processBkashWebhook payA 50 dbOld).1.reconciliations =
      [⟨1, 20, "MATCHED", 50, MatchType.FUZZY⟩] := by
  decide

/-- C7 (amended): the claim update always writes the event's external id
onto the matched collection, overwriting any previously stored id. -/
theorem C7_txnid_overwritten (data : BkashPayload) (nowMs : Int) (db : DB)
    (mc : Collection)
    (h : bkashSelect data (bkashLogStep data nowMs db).1 = some mc) :
    ∀ c' ∈ (processBkashWebhook data nowMs db).1.collections,
      c'.id = mc.id → c'.txnId = some data.txnId := by
  intro c' hc' hid
  simp only [processBkashWebhook] at hc'
  rw [h] at hc'
  simp only [bkashCommit] at hc'
  rw [List.mem_map] at hc'
  obtain ⟨c0, -, hup⟩ := hc'
  by_cases hcid : c0.id = mc.id
  · rw [← hup]
    simp [claimUpdate, hcid]
  · exfalso
    apply hcid
    rw [← hup] at hid
    simp only [claimUpdate] at hid
    by_cases hb : c0.id == mc.id
    · exact beq_iff_eq.mp hb
    · rw [if_neg hb] at hid
      exact absurd hid (by simpa using hb)

/-- C7 witness: applying the amended theorem to the `payA`/`collOld`
fixture shows the claimed row carries the event's id `A`. -/
theorem C7_txnid_overwritten_witness :
    (⟨1, .BKASH, some "A", 500, 0, .APPROVED, true, 0⟩ : Collection).txnId =
      some payA.txnId :=
  C7_txnid_overwritten payA 50 dbOld collOld (by decide)
    ⟨1, .BKASH, some "A", 500, 0, .APPROVED, true, 0⟩ (by decide) (by decide)

/-! ## C2 — at-most-one match and the "atomic claim"

The code's claim update (`prisma.collection.update({ where: { id } })`)
is keyed by row id alone: it is not conditioned on the row still being
PENDING/unmatched.  Splitting `processBkashWebhook` at its `await` points
exhibits an interleaving of two concurrent deliveries in which both
events select the same PENDING row and both commit a MATCHED
reconciliation against it. -/

/-- State after event 1's log insert. -/
def raceDb1 : DB := (bkashLogStep payA 100 dbOld).1

/-- State after event 2's log insert (both finds run against this). -/
def raceDb2 : DB := (bkashLogStep payB 101 raceDb1).1

/-- State after event 1's commit, which used a candidate selected from
`raceDb2` (i.e. before event 1's update was visible to event 2). -/
def raceDb3 : DB :=
  (bkashCommit payA (bkashLogStep payA 100 dbOld).2 100
    (bkashSelect payA raceDb2) raceDb2).1

/-- Final state: event 2 commits the candidate it selected from
`raceDb2`, after event 1's commit. -/
def raceDb4 : DB :=
  (bkashCommit payB (bkashLogStep payB 101 raceDb1).2 101
    (bkashSelect payB raceDb2) raceDb3).1

/-- C2 counterexample.  Both events observe the same single PENDING
candidate, and the final state carries TWO `MATCHED` reconciliations
against collection 1 — the conditional-update protection the claim
describes does not exist, so the race produces two MATCHED outcomes
rather than one MATCHED and one UNMATCHED. -/
theorem C2_race_counterexample :
    bkashSelect payA raceDb2 = some collOld ∧
    bkashSelect payB raceDb2 = some collOld ∧
    raceDb4.reconciliations =
      [⟨1, 20, "MATCHED", 100, MatchType.FUZZY⟩,
       ⟨1, 21, "MATCHED", 101, MatchType.FUZZY⟩] ∧
    matchedReconCountFor raceDb4 1 = 2 := by
  decide

/-- C2 (amended): under sequential (non-interleaved) processing each
collection is matched at most once — because the matcher only ever
selects PENDING rows and a claim moves its row to APPROVED, webhook
processing preserves both "reconciled collections are settled" and
"at most one MATCHED reconciliation per collection". -/
theorem C2_sequential_match_once (data : BkashPayload) (nowMs : Int) (db : DB)
    (h1 : ReconTargetsSettled db) (h2 : MatchedAtMostOnce db) :
    ReconTargetsSettled (processBkashWebhook data nowMs db).1 ∧
    MatchedAtMostOnce (processBkashWebhook data nowMs db).1 := by
  cases hsel : bkashSelect data (bkashLogStep data nowMs db).1 with
  | none =>
    constructor
    · intro r hr c hc hid
      simp only [processBkashWebhook] at hr hc
      rw [hsel] at hr hc
      simp only [bkashCommit, bkashLogStep] at hr hc
      exact h1 r hr c hc hid
    · intro cid
      have : matchedReconCountFor (processBkashWebhook data nowMs db).1 cid =
          matchedReconCountFor db cid := by
        simp only [processBkashWebhook, matchedReconCountFor]
        rw [hsel]
        simp [bkashCommit, bkashLogStep]
      rw [this]
      exact h2 cid
  | some mc =>
    have hpend := bkashSelect_pending hsel
    have hmcmem : mc ∈ db.collections := hpend.1
    have hmcst : mc.status = CollectionStatus.PENDING := hpend.2
    constructor
    · intro r hr c hc hid
      simp only [processBkashWebhook] at hr hc
      rw [hsel] at hr hc
      simp only [bkashCommit, bkashLogStep] at hr hc
      rw [List.mem_map] at hc
      obtain ⟨c0, hc0, hup⟩ := hc
      by_cases hcid : c0.id = mc.id
      · rw [← hup]
        simp [claimUpdate, hcid]
      · have hceq : c = c0 := by
          rw [← hup]
          simp [claimUpdate, hcid]
        subst hceq
        rcases List.mem_append.mp hr with hrold | hrnew
        · exact h1 r hrold c hc0 hid
        · exfalso
          apply hcid
          simp only [List.mem_singleton] at hrnew
          rw [hrnew] at hid
          exact hid
    · intro cid
      have hcount : matchedReconCountFor (processBkashWebhook data nowMs db).1 cid =
          matchedReconCountFor db cid +
            (if mc.id == cid then 1 else 0) := by
        simp only [processBkashWebhook, matchedReconCountFor]
        rw [hsel]
        simp only [bkashCommit, bkashLogStep, List.filter_append,
          List.length_append]
        congr 1
        by_cases hcid : mc.id == cid
        · simp [hcid]
        · simp [hcid]
      rw [hcount]
      by_cases hcid : mc.id == cid
      · rw [if_pos hcid]
        have hzero : matchedReconCountFor db cid = 0 := by
          rw [matchedReconCountFor, List.length_eq_zero]
          rw [List.filter_eq_nil_iff]
          intro r hr
          intro hpred
          simp only [Bool.and_eq_true, beq_iff_eq] at hpred
          have := h1 r hr mc hmcmem (beq_iff_eq.mp hcid ▸ hpred.1.symm ▸ rfl)
          exact this hmcst
        omega
      · rw [if_neg hcid]
        have := h2 cid
        omega

/-- C2 witness: applying the sequential invariant to the one-row fixture
shows the post-state still has at most one MATCHED reconciliation per
collection. -/
theorem C2_sequential_match_once_witness :
    MatchedAtMostOnce (processBkashWebhook payA 100 dbOld).1 :=
  (C2_sequential_match_once payA 100 dbOld
    (by intro r hr; simp [dbOld] at hr)
    (by intro cid; simp [matchedReconCountFor, dbOld])).2

/-! ## C8 — SLA sweep severity -/

/-- Sweep fixture: bank 1 with a 12-hour deposit SLA. -/
def bankSla12 : BankRow := ⟨1, some 12, none⟩

/-- Account 1 belongs to bank 1. -/
def acctSla : AccountRow := ⟨1, 1, 0, none⟩

/-- A PENDING CASH collection created at epoch 0. -/
def collSlaCash : SlaCollectionRow := ⟨1, .CASH, .PENDING, 0⟩

/-- C8 counterexample.  The claim asserts severity escalates relative to
the bank's SLA (CRITICAL beyond 2×SLA).  With a 12 h SLA and a CASH
collection aged 30 h (108000 s), the spec-relative scale demands CRITICAL
(30 h > 2×12 h), but the code's fixed thresholds yield ERROR
(108000 ≤ 172800). -/
theorem C8_severity_counterexample :
    checkSlaDeposits 108000 [collSlaCash] [acctSla] [bankSla12] =
      [⟨1, "DEPOSIT_DELAY", 30, Severity.ERROR⟩] ∧
    specRelativeSeverity (12 * 3600) 108000 = Severity.CRITICAL ∧
    Severity.ERROR ≠ Severity.CRITICAL := by
  decide

/-- C8 (amended): the sweep emits DEPOSIT_DELAY for PENDING CASH or
BANK_DEPOSIT collections older than the bank's configured deposit SLA
(default 48 h), but the severity ladder uses fixed absolute thresholds —
ERROR above 24 h of age, CRITICAL above 48 h — independent of the bank's
SLA value; the spec's worked example (CASH aged 50 h against a 24 h SLA)
is emitted at CRITICAL because 50 h exceeds the fixed 48 h threshold. -/
theorem C8_fixed_thresholds (nowSec : Int) (colls : List SlaCollectionRow)
    (accounts : List AccountRow) (banks : List BankRow)
    (c : SlaCollectionRow) (a : AccountRow) (b : BankRow)
    (hc : c ∈ colls)
    (ha : accounts.find? (fun x => x.id == c.accountId) = some a)
    (hb : banks.find? (fun x => x.id == a.bankId) = some b)
    (hst : c.status = CollectionStatus.PENDING)
    (hty : c.ctype = CollectionType.CASH ∨ c.ctype = CollectionType.BANK_DEPOSIT)
    (hel : nowSec - c.createdAtSec > depositThresholdSec b) :
    (⟨c.accountId, "DEPOSIT_DELAY", (nowSec - c.createdAtSec) / 3600,
        depositSeverity (nowSec - c.createdAtSec)⟩ : SlaBreachRow) ∈
      checkSlaDeposits nowSec colls accounts banks ∧
    (nowSec - c.createdAtSec > 172800 →
      depositSeverity (nowSec - c.createdAtSec) = Severity.CRITICAL) ∧
    (86400 < nowSec - c.createdAtSec → nowSec - c.createdAtSec ≤ 172800 →
      depositSeverity (nowSec - c.createdAtSec) = Severity.ERROR) ∧
    checkSlaDeposits 180000 [⟨7, .CASH, .PENDING, 0⟩] [⟨7, 9, 0, none⟩]
        [⟨9, some 24, none⟩] =
      [⟨7, "DEPOSIT_DELAY", 50, Severity.CRITICAL⟩] := by
  refine ⟨?_, ?_, ?_, by decide⟩
  · rw [checkSlaDeposits, List.mem_filterMap]
    refine ⟨c, hc, ?_⟩
    have hcond : (c.status == CollectionStatus.PENDING &&
        (c.ctype == CollectionType.CASH || c.ctype == CollectionType.BANK_DEPOSIT) &&
        decide (nowSec - c.createdAtSec > depositThresholdSec b)) = true := by
      simp only [Bool.and_eq_true, Bool.or_eq_true, beq_iff_eq,
        decide_eq_true_eq]
      exact ⟨⟨hst, hty⟩, hel⟩
    simp only [ha, hb]
    simp [hcond]
  · intro hcr
    rw [depositSeverity, if_pos hcr]
  · intro hlo hhi
    rw [depositSeverity, if_neg (by omega), if_pos hlo]

/-- C8 witness: the fixed-threshold theorem applied to the 12 h-SLA bank
at age 30 h — the emitted row is ERROR — and the worked 50 h example. -/
theorem C8_fixed_thresholds_witness :
    (⟨1, "DEPOSIT_DELAY", 30, Severity.ERROR⟩ : SlaBreachRow) ∈
      checkSlaDeposits 108000 [collSlaCash] [acctSla] [bankSla12] ∧
    checkSlaDeposits 180000 [⟨7, .CASH, .PENDING, 0⟩] [⟨7, 9, 0, none⟩]
        [⟨9, some 24, none⟩] =
      [⟨7, "DEPOSIT_DELAY", 50, Severity.CRITICAL⟩] := by
  have h := C8_fixed_thresholds 108000 [collSlaCash] [acctSla] [bankSla12]
    collSlaCash acctSla bankSla12 (by decide) (by decide) (by decide)
    (by decide) (Or.inl (by decide)) (by decide)
  exact ⟨h.2.2.1 (by decide) (by decide) ▸ h.1, h.2.2.2⟩

/-! ## C3 — signature verification -/

/-- The raw body used by the C3 fixtures, with a tab between colon and
number: an object with field `a = 1`. -/
def rawTab : String := ⟨[lbrace, '"', 'a', '"', ':', '\t', '1', rbrace]⟩

/-- The same raw body with exactly one byte altered: the tab replaced by
a space.  Parses to the same object as `rawTab`. -/
def rawSpace : String := ⟨[lbrace, '"', 'a', '"', ':', ' ', '1', rbrace]⟩

/-- A raw body whose parse differs: field `a = 2`. -/
def rawAltered : String := ⟨[lbrace, '"', 'a', '"', ':', '2', rbrace]⟩

/-- Digest function for the C3 fixtures: digest `aa` exactly for the
canonical serialization of the object with `a = 1`, `bb` otherwise. -/
def hmacC3 : String → String → String :=
  fun _ p => if p = jsonStringify (.jobj [("a", .jnum 1)]) then "aa" else "bb"

/-- C3 counterexample.  The claim asserts the HMAC is computed over the
raw body and that any alteration of a payload byte after signing
invalidates verification.  On the code the HMAC is computed over
`JSON.stringify(req.body)` — the re-serialization of the parsed body.
`rawTab` and `rawSpace` have equal length and differ in exactly one byte
(a tab versus a space), both parse to the same object, and the same
signature passes verification for both: the alteration does not
invalidate it. -/
theorem C3_rawbody_counterexample :
    rawTab ≠ rawSpace ∧
    rawTab.length = rawSpace.length ∧
    jsonParse rawTab = jsonParse rawSpace ∧
    verifyWebhookSignatureFromRaw hmacC3 (some "k") 0 (some "aa") none rawTab =
      some MwResult.proceed ∧
    verifyWebhookSignatureFromRaw hmacC3 (some "k") 0 (some "aa") none rawSpace =
      some MwResult.proceed :=
  ⟨by decide, by decide, rfl, rfl, rfl⟩

/-- C3 (amended): the expected signature is an HMAC over the canonical
string `timestamp + "." + S` when a timestamp header is present, else `S`
alone, where `S = JSON.stringify(req.body)` is the re-serialization of
the parsed body, not the raw bytes.  (i) A provided signature whose
decoded bytes have the right length but differ from that digest is
rejected HTTP 401 "Invalid signature" with the database untouched —
nothing persisted.  (ii) Altering `S` after signing invalidates
verification: a signature that passed for one serialized body is rejected
401 for any serialized body whose digest differs (digests of equal
decoded length, as real SHA-256 digests are).  (iii) Consequently a
raw-body alteration invalidates verification exactly when it changes the
parsed body's serialization digest — parse-preserving byte changes are
outside this clause (see the counterexample). -/
theorem C3_signature_verification (hmacHex : String → String → String)
    (secret : String) (nowMs : Int) :
    (∀ (ts : Option String) (body sig : String) (parsed : Option BkashPayload)
        (db : DB),
      hexDecode (replaceFirst "sha256=" sig).data ≠
        hexDecode (hmacHex secret (canonicalPayload ts body)).data →
      (hexDecode (replaceFirst "sha256=" sig).data).length =
        (hexDecode (hmacHex secret (canonicalPayload ts body)).data).length →
      handleBkashRoute hmacHex (some secret) nowMs ⟨some sig, ts, body, parsed⟩ db =
        (db, RouteResponse.err 401 "Invalid signature")) ∧
    (∀ (ts : Option String) (body altered sig : String),
      verifyWebhookSignature hmacHex (some secret) nowMs (some sig) ts body =
        MwResult.proceed →
      hexDecode (hmacHex secret (canonicalPayload ts altered)).data ≠
        hexDecode (hmacHex secret (canonicalPayload ts body)).data →
      (hexDecode (hmacHex secret (canonicalPayload ts altered)).data).length =
        (hexDecode (hmacHex secret (canonicalPayload ts body)).data).length →
      verifyWebhookSignature hmacHex (some secret) nowMs (some sig) ts altered =
        MwResult.reject 401 "Invalid signature") ∧
    (∀ (ts : Option String) (raw rawOther sig : String) (body bodyOther : Json),
      jsonParse raw = some body →
      jsonParse rawOther = some bodyOther →
      verifyWebhookSignatureFromRaw hmacHex (some secret) nowMs (some sig) ts raw =
        some MwResult.proceed →
      hexDecode (hmacHex secret (canonicalPayload ts (jsonStringify bodyOther))).data ≠
        hexDecode (hmacHex secret (canonicalPayload ts (jsonStringify body))).data →
      (hexDecode (hmacHex secret (canonicalPayload ts (jsonStringify bodyOther))).data).length =
        (hexDecode (hmacHex secret (canonicalPayload ts (jsonStringify body))).data).length →
      verifyWebhookSignatureFromRaw hmacHex (some secret) nowMs (some sig) ts rawOther =
        some (MwResult.reject 401 "Invalid signature")) := by
  have core : ∀ (ts : Option String) (body altered sig : String),
      verifyWebhookSignature hmacHex (some secret) nowMs (some sig) ts body =
        MwResult.proceed →
      hexDecode (hmacHex secret (canonicalPayload ts altered)).data ≠
        hexDecode (hmacHex secret (canonicalPayload ts body)).data →
      (hexDecode (hmacHex secret (canonicalPayload ts altered)).data).length =
        (hexDecode (hmacHex secret (canonicalPayload ts body)).data).length →
      verifyWebhookSignature hmacHex (some secret) nowMs (some sig) ts altered =
        MwResult.reject 401 "Invalid signature" := by
    intro ts body altered sig hok hne hlen
    simp only [verifyWebhookSignature] at hok ⊢
    by_cases h1 : (hexDecode (hmacHex secret (canonicalPayload ts body)).data).length ≠
        (hexDecode (replaceFirst "sha256=" sig).data).length
    · rw [if_pos h1] at hok
      exact absurd hok (by simp)
    · rw [if_neg h1] at hok
      push_neg at h1
      by_cases h2 : hexDecode (hmacHex secret (canonicalPayload ts body)).data ≠
          hexDecode (replaceFirst "sha256=" sig).data
      · rw [if_pos h2] at hok
        exact absurd hok (by simp)
      · push_neg at h2
        have hlen2 : (hexDecode (hmacHex secret (canonicalPayload ts altered)).data).length =
            (hexDecode (replaceFirst "sha256=" sig).data).length :=
          hlen.trans h1
        have hne2 : hexDecode (hmacHex secret (canonicalPayload ts altered)).data ≠
            hexDecode (replaceFirst "sha256=" sig).data :=
          fun heq => hne (heq.trans h2.symm)
        rw [if_neg (fun h => h hlen2), if_pos hne2]
  refine ⟨?_, core, ?_⟩
  · intro ts body sig parsed db hne hlen
    have hv : verifyWebhookSignature hmacHex (some secret) nowMs
        (some sig) ts body = MwResult.reject 401 "Invalid signature" := by
      simp only [verifyWebhookSignature]
      rw [if_neg (fun h => h hlen.symm), if_pos (Ne.symm hne)]
    simp only [handleBkashRoute]
    rw [hv]
  · intro ts raw rawOther sig body bodyOther hparse hparseOther hok hne hlen
    have hokv : verifyWebhookSignature hmacHex (some secret) nowMs (some sig)
        ts (jsonStringify body) = MwResult.proceed := by
      unfold verifyWebhookSignatureFromRaw at hok
      rw [hparse] at hok
      simpa using hok
    have hrej := core ts (jsonStringify body) (jsonStringify bodyOther) sig
      hokv hne hlen
    unfold verifyWebhookSignatureFromRaw
    rw [hparseOther]
    simp [hrej]

/-- A toy digest function distinguishing bodies `A` and `B`. -/
def hmacToy : String → String → String :=
  fun _ p => if p = "A" then "aa" else "bb"

/-- An empty database. -/
def dbEmpty : DB := ⟨[], [], [], 0⟩

/-- C3 witness: a wrong same-length signature for serialized body `A`
yields 401 with the database untouched; the signature valid for `A` is
rejected 401 when presented with serialized body `B`; and the signature
valid for the raw body with `a = 1` is rejected 401 for the raw body with
`a = 2`, whose parse (and hence digest) differs. -/
theorem C3_signature_verification_witness :
    handleBkashRoute hmacToy (some "k") 0 ⟨some "ab", none, "A", none⟩ dbEmpty =
      (dbEmpty, RouteResponse.err 401 "Invalid signature") ∧
    verifyWebhookSignature hmacToy (some "k") 0 (some "aa") none "B" =
      MwResult.reject 401 "Invalid signature" ∧
    verifyWebhookSignatureFromRaw hmacC3 (some "k") 0 (some "aa") none rawAltered =
      some (MwResult.reject 401 "Invalid signature") :=
  ⟨(C3_signature_verification hmacToy "k" 0).1 none "A" "ab" none dbEmpty
      (by decide) (by decide),
   (C3_signature_verification hmacToy "k" 0).2.1 none "A" "B" "aa"
      (by decide) (by decide) (by decide),
   (C3_signature_verification hmacC3 "k" 0).2.2 none rawTab rawAltered "aa"
      (.jobj [("a", .jnum 1)]) (.jobj [("a", .jnum 2)])
      rfl rfl rfl (by decide) (by decide)⟩

/-! ## C10 — length-mismatched signatures hit the 500 path -/

/-- C10: when the provided signature (after stripping the optional
`sha256=` marker and hex-decoding) has a byte length different from the
32-byte expected digest, `crypto.timingSafeEqual` throws, the catch block
answers HTTP 500 "Signature verification failed" (not the 401 used for an
equal-length mismatch), and nothing is persisted. -/
theorem C10_length_mismatch_500 (hmacHex : String → String → String)
    (secret : String) (nowMs : Int) (ts : Option String) (body sig : String)
    (parsed : Option BkashPayload) (db : DB)
    (hexp : (hexDecode (hmacHex secret (canonicalPayload ts body)).data).length = 32)
    (hprov : (hexDecode (replaceFirst "sha256=" sig).data).length ≠ 32) :
    handleBkashRoute hmacHex (some secret) nowMs ⟨some sig, ts, body, parsed⟩ db =
      (db, RouteResponse.err 500 "Signature verification failed") := by
  have hv : verifyWebhookSignature hmacHex (some secret) nowMs
      (some sig) ts body = MwResult.reject 500 "Signature verification failed" := by
    simp only [verifyWebhookSignature]
    rw [if_pos (by omega)]
  simp only [handleBkashRoute]
  rw [hv]

/-- A digest function always producing a 64-hex-character (32-byte)
digest, as SHA-256 does. -/
def hmac64 : String → String → String :=
  fun _ _ => "0000000000000000000000000000000000000000000000000000000000000000"

/-- C10 witness: the one-byte signature `ab` cannot be length-compared to
the 32-byte digest, so the route answers 500 with the database
untouched. -/
theorem C10_length_mismatch_500_witness :
    handleBkashRoute hmac64 (some "k") 0 ⟨some "ab", none, "x", none⟩ dbEmpty =
      (dbEmpty, RouteResponse.err 500 "Signature verification failed") :=
  C10_length_mismatch_500 hmac64 "k" 0 none "x" "ab" none dbEmpty
    (by decide) (by decide)

end BankFileTracker
